import Mathlib

/-!
Verification of the Tidycraft asset-inventory frontend.

The development shallowly embeds the data model (`src/types/asset.ts`), the
Zustand project store (`src/stores/projectStore.ts`) and the issue-list view
into Lean.  Stateful store actions become explicit functions from store state
to store state; the asynchronous scan command is modelled by passing its
outcome (a result or a rejection message) as an argument.  Components of the
application that live in the Tauri backend and are not part of the repository
(the rule engine producing `AnalysisResult`s) are modelled from the spec and
marked as such.
-/

namespace Tidycraft

/-! ### JavaScript string helpers

`String.prototype.includes`, `String.prototype.startsWith` and
`path.substring(0, path.lastIndexOf("/"))` as used by the store. -/

/-- Does the char list `s` start with the char list `p`? -/
def startsWithList : List Char → List Char → Bool
  | _, [] => true
  | [], _ :: _ => false
  | c :: cs, d :: ds => c == d && startsWithList cs ds

/-- Does the char list `s` contain the char list `sub` as a contiguous run? -/
def containsList : List Char → List Char → Bool
  | [], sub => startsWithList [] sub
  | c :: cs, sub => startsWithList (c :: cs) sub || containsList cs sub

/-- JavaScript `s.includes(sub)`. -/
def strIncludes (s sub : String) : Bool :=
  containsList s.data sub.data

/-- JavaScript `s.startsWith(p)`. -/
def strStartsWith (s p : String) : Bool :=
  startsWithList s.data p.data

/-- JavaScript `p.substring(0, p.lastIndexOf("/"))`: everything before the
last slash, and `""` when there is no slash (`lastIndexOf` returns `-1` and
`substring` clamps it to `0`). -/
def dirOfPath (p : String) : String :=
  String.mk (((p.data.reverse.dropWhile (fun c => c != '/')).drop 1).reverse)

/-! ### Data model (`src/types/asset.ts`) -/

/-- `AssetType` union from `src/types/asset.ts`. -/
inductive AssetType where
  | texture | model | audio | animation | material
  | prefab | scene | script | data | other
deriving DecidableEq, Repr

/-- The string literal carried by each `AssetType` member in TypeScript. -/
def assetTypeStr : AssetType → String
  | .texture => "texture"
  | .model => "model"
  | .audio => "audio"
  | .animation => "animation"
  | .material => "material"
  | .prefab => "prefab"
  | .scene => "scene"
  | .script => "script"
  | .data => "data"
  | .other => "other"

/-- `ProjectType` union from `src/types/asset.ts`. -/
inductive ProjectType where
  | unity | unreal | godot | generic
deriving DecidableEq, Repr

/-- `AssetMetadata`; every field is optional in TypeScript. -/
structure AssetMetadata where
  width : Option Nat := none
  height : Option Nat := none
  has_alpha : Option Bool := none
  vertex_count : Option Nat := none
  face_count : Option Nat := none
  material_count : Option Nat := none
  duration_secs : Option Nat := none
  sample_rate : Option Nat := none
  channels : Option Nat := none
  bit_depth : Option Nat := none
deriving DecidableEq, Repr

/-- `AssetInfo` from `src/types/asset.ts`. -/
structure AssetInfo where
  path : String
  name : String
  extension : String
  asset_type : AssetType
  size : Nat
  metadata : Option AssetMetadata := none
  unity_guid : Option String := none
deriving DecidableEq, Repr

/-- `DirectoryNode`: a tree node with a list of children. -/
inductive DirectoryNode where
  | node (name : String) (path : String) (children : List DirectoryNode)
      (file_count : Nat) (total_size : Nat)

/-- `ScanResult` from `src/types/asset.ts`; `type_counts` is a string-keyed
record, embedded as an association list. -/
structure ScanResult where
  root_path : String
  directory_tree : DirectoryNode
  assets : List AssetInfo
  total_count : Nat
  total_size : Nat
  type_counts : List (String × Nat) := []
  project_type : Option ProjectType := none

/-- The string literals inhabiting the `ScanPhase` union in
`src/types/asset.ts`. -/
def scanPhaseValues : List String :=
  ["discovering", "parsing", "building", "completed", "cancelled"]

/-- The six states named by the spec's scan state machine
(`Idle → Discovering → Extracting → Aggregating → Completed`, plus the
terminal `Cancelled`), lower-cased the way the program spells phases. -/
def specClaimPhases : List String :=
  ["idle", "discovering", "extracting", "aggregating", "completed", "cancelled"]

/-- `getPhaseLabel` from the status-bar component: maps a phase string to its
display label, with a default of `"Scanning"`. -/
def getPhaseLabel (phase : String) : String :=
  if phase = "discovering" then "Discovering files"
  else if phase = "parsing" then "Parsing assets"
  else if phase = "building" then "Building tree"
  else if phase = "completed" then "Completed"
  else if phase = "cancelled" then "Cancelled"
  else "Scanning"

/-- `ScanProgress` from `src/types/asset.ts`; the phase is carried as its
literal string. -/
structure ScanProgress where
  phase : String
  current : Nat
  total : Option Nat := none
  current_file : String
deriving DecidableEq, Repr

/-- `Severity` union from `src/types/asset.ts`. -/
inductive Severity where
  | error | warning | info
deriving DecidableEq, Repr

/-- `Issue` from `src/types/asset.ts`. -/
structure Issue where
  rule_id : String
  rule_name : String
  severity : Severity
  message : String
  asset_path : String
  suggestion : Option String := none
  auto_fixable : Bool := false
deriving DecidableEq, Repr

/-- `AnalysisResult` from `src/types/asset.ts`; `by_rule` is a string-keyed
record, embedded as an association list. -/
structure AnalysisResult where
  issues : List Issue
  issue_count : Nat
  error_count : Nat
  warning_count : Nat
  info_count : Nat
  by_rule : List (String × Nat)
deriving DecidableEq, Repr

/-- `HistoryEntry` undo type. -/
structure HistoryEntry where
  id : String
  description : String
  file_count : Nat
  timestamp : Nat
  can_undo : Bool
deriving DecidableEq, Repr

/-- `GitInfo`: only `is_repo` is consulted by the store. -/
structure GitInfo where
  is_repo : Bool
deriving DecidableEq, Repr

/-! ### The project store (`src/stores/projectStore.ts`) -/

/-- `ViewMode` union. -/
inductive ViewMode where
  | assets | issues | stats
deriving DecidableEq, Repr

/-- `SortField` union. -/
inductive SortField where
  | name | type | size | dimensions | vertices | faces
  | duration | sampleRate | extension
deriving DecidableEq, Repr

/-- `SortDirection` union. -/
inductive SortDirection where
  | asc | desc
deriving DecidableEq, Repr

/-- `AdvancedFilters`. -/
structure AdvancedFilters where
  minSize : Option Nat := none
  maxSize : Option Nat := none
  minWidth : Option Nat := none
  maxWidth : Option Nat := none
  minHeight : Option Nat := none
  maxHeight : Option Nat := none
  extensions : List String := []
deriving DecidableEq, Repr

/-- The reset / initial value of the advanced filters. -/
def emptyAdvancedFilters : AdvancedFilters :=
  { minSize := none, maxSize := none, minWidth := none, maxWidth := none
    minHeight := none, maxHeight := none, extensions := [] }

/-- `Partial<AdvancedFilters>` as passed to `setAdvancedFilters`: each field
may be present (overriding) or absent (keeping the current value). -/
structure AdvancedFiltersPatch where
  minSize : Option (Option Nat) := none
  maxSize : Option (Option Nat) := none
  minWidth : Option (Option Nat) := none
  maxWidth : Option (Option Nat) := none
  minHeight : Option (Option Nat) := none
  maxHeight : Option (Option Nat) := none
  extensions : Option (List String) := none
deriving DecidableEq, Repr

/-- JavaScript object spread `{ ...advancedFilters, ...filters }`. -/
def applyFiltersPatch (cur : AdvancedFilters) (p : AdvancedFiltersPatch) :
    AdvancedFilters :=
  { minSize := p.minSize.getD cur.minSize
    maxSize := p.maxSize.getD cur.maxSize
    minWidth := p.minWidth.getD cur.minWidth
    maxWidth := p.maxWidth.getD cur.maxWidth
    minHeight := p.minHeight.getD cur.minHeight
    maxHeight := p.maxHeight.getD cur.maxHeight
    extensions := p.extensions.getD cur.extensions }

/-- The data fields of the Zustand store in `src/stores/projectStore.ts`.
`GitStatusMap` is a string-keyed record, embedded as an association list. -/
structure ProjectState where
  projectPath : Option String
  scanResult : Option ScanResult
  isScanning : Bool
  error : Option String
  scanProgress : Option ScanProgress
  analysisResult : Option AnalysisResult
  isAnalyzing : Bool
  viewMode : ViewMode
  selectedDirectory : Option String
  selectedAsset : Option AssetInfo
  searchQuery : String
  typeFilter : Option AssetType
  sortField : SortField
  sortDirection : SortDirection
  advancedFilters : AdvancedFilters
  canUndo : Bool
  undoHistory : List HistoryEntry
  gitInfo : Option GitInfo
  gitStatuses : List (String × String)

/-- The initial store state built by `create`. -/
def initialState : ProjectState :=
  { projectPath := none, scanResult := none, isScanning := false
    error := none, scanProgress := none, analysisResult := none
    isAnalyzing := false, viewMode := .assets, selectedDirectory := none
    selectedAsset := none, searchQuery := "", typeFilter := none
    sortField := .name, sortDirection := .asc
    advancedFilters := emptyAdvancedFilters, canUndo := false
    undoHistory := [], gitInfo := none, gitStatuses := [] }

/-- The outcome of the awaited `scan_project_incremental` command: it either
resolves with a `ScanResult` or rejects with a stringified error message. -/
inductive ScanOutcome where
  | success (result : ScanResult)
  | failure (message : String)

/-- `openProject`.  The first update turns scanning on and clears error,
progress and analysis state; `lastProgress` is the payload of the last
`scan-progress` event observed before the command settled (or `none`); the
final update depends on the command's outcome, with rejections whose message
contains `"cancelled"` surfacing no error.  The un-awaited
`refreshGitInfo()` dispatched after a successful scan is a separate later
action and not part of the state this call installs. -/
def openProject (s : ProjectState) (path : String)
    (lastProgress : Option ScanProgress) (outcome : ScanOutcome) :
    ProjectState :=
  let s := { s with isScanning := true, error := none, scanProgress := none
                    analysisResult := none }
  let s := { s with scanProgress := lastProgress }
  match outcome with
  | .success result =>
      { s with projectPath := some path, scanResult := some result
               isScanning := false, selectedDirectory := some path
               selectedAsset := none, scanProgress := none }
  | .failure msg =>
      if strIncludes msg "cancelled" then
        { s with isScanning := false, scanProgress := none }
      else
        { s with error := some msg, isScanning := false, scanProgress := none }

/-- `closeProject`. -/
def closeProject (s : ProjectState) : ProjectState :=
  { s with projectPath := none, scanResult := none, error := none
           selectedDirectory := none, selectedAsset := none, searchQuery := ""
           typeFilter := none, scanProgress := none, analysisResult := none
           viewMode := .assets }

/-- `runAnalysis`, with the outcome of the awaited `analyze_assets` command
passed explicitly. -/
def runAnalysis (s : ProjectState) (outcome : Except String AnalysisResult) :
    ProjectState :=
  let s := { s with isAnalyzing := true }
  match outcome with
  | .ok result =>
      { s with analysisResult := some result, isAnalyzing := false
               viewMode := .issues }
  | .error e => { s with error := some e, isAnalyzing := false }

/-- `setViewMode`. -/
def setViewMode (s : ProjectState) (mode : ViewMode) : ProjectState :=
  { s with viewMode := mode }

/-- `setSelectedDirectory`. -/
def setSelectedDirectory (s : ProjectState) (path : Option String) :
    ProjectState :=
  { s with selectedDirectory := path, selectedAsset := none }

/-- `setSelectedAsset`. -/
def setSelectedAsset (s : ProjectState) (asset : Option AssetInfo) :
    ProjectState :=
  { s with selectedAsset := asset }

/-- `setSearchQuery`. -/
def setSearchQuery (s : ProjectState) (query : String) : ProjectState :=
  { s with searchQuery := query }

/-- `setTypeFilter`. -/
def setTypeFilter (s : ProjectState) (t : Option AssetType) : ProjectState :=
  { s with typeFilter := t }

/-- Flip a `SortDirection`. -/
def flipDirection : SortDirection → SortDirection
  | .asc => .desc
  | .desc => .asc

/-- `setSortField`: toggle the direction when the field is unchanged,
otherwise select the new field ascending. -/
def setSortField (s : ProjectState) (field : SortField) : ProjectState :=
  if s.sortField = field then
    { s with sortDirection := flipDirection s.sortDirection }
  else
    { s with sortField := field, sortDirection := .asc }

/-- `toggleSortDirection`. -/
def toggleSortDirection (s : ProjectState) : ProjectState :=
  { s with sortDirection := flipDirection s.sortDirection }

/-- `locateAsset`: a no-op unless a scan result holds an asset with the given
path; otherwise jump the asset view to that asset's directory. -/
def locateAsset (s : ProjectState) (path : String) : ProjectState :=
  match s.scanResult with
  | none => s
  | some scanResult =>
      match scanResult.assets.find? (fun a => a.path == path) with
      | none => s
      | some asset =>
          { s with viewMode := .assets
                   selectedDirectory := some (dirOfPath path)
                   selectedAsset := some asset }

/-- `setAdvancedFilters` (object-spread merge of a partial update). -/
def setAdvancedFilters (s : ProjectState) (p : AdvancedFiltersPatch) :
    ProjectState :=
  { s with advancedFilters := applyFiltersPatch s.advancedFilters p }

/-- `resetAdvancedFilters`. -/
def resetAdvancedFilters (s : ProjectState) : ProjectState :=
  { s with advancedFilters := emptyAdvancedFilters }

/-! ### `getFilteredAssets` -/

/-- JavaScript `asset.metadata?.f || 0`: a missing metadata object or a
missing field yields `0`. -/
def metaNat (m : Option AssetMetadata) (f : AssetMetadata → Option Nat) : Nat :=
  (m.bind f).getD 0

/-- The directory filter predicate: the asset sits directly in the selected
directory or anywhere below it. -/
def dirMatches (sel : String) (a : AssetInfo) : Bool :=
  dirOfPath a.path == sel || strStartsWith a.path (sel ++ "/")

/-- The search filter predicate, with `query` already lower-cased. -/
def queryMatches (query : String) (a : AssetInfo) : Bool :=
  strIncludes a.name.toLower query || strIncludes a.path.toLower query

/-- Conditionally applied filter stage (a guarded `assets = assets.filter`
reassignment). -/
def filterWhen (c : Bool) (p : AssetInfo → Bool) (l : List AssetInfo) :
    List AssetInfo :=
  if c then l.filter p else l

/-- Filter stage guarded by the presence of an optional parameter. -/
def filterOpt {β : Type} (o : Option β) (p : β → AssetInfo → Bool)
    (l : List AssetInfo) : List AssetInfo :=
  match o with
  | some x => l.filter (p x)
  | none => l

/-- JavaScript truthiness of `selectedDirectory`: the directory filter is
skipped both for `null` and for the empty string. -/
def truthyStr : Option String → Option String
  | some "" => none
  | o => o

/-- The chain of filter stages of `getFilteredAssets`, in source order. -/
def applyAssetFilters (s : ProjectState) (l : List AssetInfo) :
    List AssetInfo :=
  let l := filterOpt (truthyStr s.selectedDirectory) dirMatches l
  let l := filterWhen (s.searchQuery.trim != "") (queryMatches s.searchQuery.toLower) l
  let l := filterOpt s.typeFilter (fun t a => a.asset_type == t) l
  let l := filterOpt s.advancedFilters.minSize (fun m a => decide (m ≤ a.size)) l
  let l := filterOpt s.advancedFilters.maxSize (fun m a => decide (a.size ≤ m)) l
  let l := filterOpt s.advancedFilters.minWidth
      (fun m a => decide (m ≤ metaNat a.metadata (fun md => md.width))) l
  let l := filterOpt s.advancedFilters.maxWidth
      (fun m a => decide (metaNat a.metadata (fun md => md.width) ≤ m)) l
  let l := filterOpt s.advancedFilters.minHeight
      (fun m a => decide (m ≤ metaNat a.metadata (fun md => md.height))) l
  let l := filterOpt s.advancedFilters.maxHeight
      (fun m a => decide (metaNat a.metadata (fun md => md.height) ≤ m)) l
  filterWhen (s.advancedFilters.extensions != [])
      (fun a => s.advancedFilters.extensions.contains a.extension.toLower) l

/-- The per-field comparison key order of the sort comparator; `localeCompare`
is modelled as the lexicographic order on strings. -/
def fieldLE (f : SortField) (a b : AssetInfo) : Prop :=
  match f with
  | .name => a.name ≤ b.name
  | .type => assetTypeStr a.asset_type ≤ assetTypeStr b.asset_type
  | .size => a.size ≤ b.size
  | .dimensions =>
      metaNat a.metadata (fun md => md.width) * metaNat a.metadata (fun md => md.height) ≤
        metaNat b.metadata (fun md => md.width) * metaNat b.metadata (fun md => md.height)
  | .vertices =>
      metaNat a.metadata (fun md => md.vertex_count) ≤
        metaNat b.metadata (fun md => md.vertex_count)
  | .faces =>
      metaNat a.metadata (fun md => md.face_count) ≤
        metaNat b.metadata (fun md => md.face_count)
  | .duration =>
      metaNat a.metadata (fun md => md.duration_secs) ≤
        metaNat b.metadata (fun md => md.duration_secs)
  | .sampleRate =>
      metaNat a.metadata (fun md => md.sample_rate) ≤
        metaNat b.metadata (fun md => md.sample_rate)
  | .extension => a.extension ≤ b.extension

/-- The comparator's order: the field order for ascending sorts, its reverse
for descending sorts (the comparator negates the comparison). -/
def sortRel (f : SortField) (d : SortDirection) (a b : AssetInfo) : Prop :=
  match d with
  | .asc => fieldLE f a b
  | .desc => fieldLE f b a

instance fieldLE.decRel (f : SortField) : DecidableRel (fieldLE f) := by
  intro a b
  cases f <;> (unfold fieldLE) <;> infer_instance

instance sortRel.decRel (f : SortField) (d : SortDirection) :
    DecidableRel (sortRel f d) := by
  intro a b
  cases d <;> (unfold sortRel) <;> infer_instance

theorem fieldLE_total (f : SortField) (a b : AssetInfo) :
    fieldLE f a b ∨ fieldLE f b a := by
  cases f <;> exact le_total _ _

theorem fieldLE_trans (f : SortField) {a b c : AssetInfo}
    (h₁ : fieldLE f a b) (h₂ : fieldLE f b c) : fieldLE f a c := by
  cases f <;> exact le_trans h₁ h₂

instance sortRel.isTotal (f : SortField) (d : SortDirection) :
    IsTotal AssetInfo (sortRel f d) := by
  constructor
  intro a b
  cases d
  · exact fieldLE_total f a b
  · exact (fieldLE_total f a b).symm

instance sortRel.isTrans (f : SortField) (d : SortDirection) :
    IsTrans AssetInfo (sortRel f d) := by
  constructor
  intro a b c h₁ h₂
  cases d
  · exact fieldLE_trans f h₁ h₂
  · exact fieldLE_trans f h₂ h₁

/-- `getFilteredAssets`: empty without a scan result, otherwise the filter
chain applied to a fresh copy of `scanResult.assets` followed by the
comparator sort (JavaScript `Array.prototype.sort` on the copy, modelled as
an insertion sort with the comparator's order). -/
def getFilteredAssets (s : ProjectState) : List AssetInfo :=
  match s.scanResult with
  | none => []
  | some scanResult =>
      List.insertionSort (sortRel s.sortField s.sortDirection)
        (applyAssetFilters s scanResult.assets)

/-! ### The rule engine

The rule engine runs in the Tauri backend, which is not part of this
repository; only its output types (`AnalysisResult`, `Issue`) and its
consumers are.  The definitions below are therefore modelled from the spec
and carry a `Modelled from the spec` marker. -/

/-- Severity rank used for the canonical order: errors sort first. -/
def sevRank : Severity → Nat
  | .error => 0
  | .warning => 1
  | .info => 2

/-- Sort key of an issue: severity, then asset path, then rule id, with the
remaining record fields as final tie-break so that the order is linear. -/
abbrev IssueKey :=
  Nat ×ₗ String ×ₗ String ×ₗ String ×ₗ String ×ₗ Bool ×ₗ String ×ₗ Bool

/-- The sort key of an issue; the optional suggestion is encoded by its
presence bit and its default-extracted content. -/
def issueKey (i : Issue) : IssueKey :=
  toLex (sevRank i.severity,
    toLex (i.asset_path,
      toLex (i.rule_id,
        toLex (i.rule_name,
          toLex (i.message,
            toLex (i.suggestion.isSome,
              toLex (i.suggestion.getD "", i.auto_fixable)))))))

theorem sevRank_inj {x y : Severity} (h : sevRank x = sevRank y) : x = y := by
  cases x <;> cases y <;> simp_all [sevRank]

theorem issueKey_inj {a b : Issue} (h : issueKey a = issueKey b) : a = b := by
  obtain ⟨ra, na, va, ma, pa, ua, fa⟩ := a
  obtain ⟨rb, nb, vb, mb, pb, ub, fb⟩ := b
  simp only [issueKey, toLex_inj, Prod.mk.injEq] at h
  obtain ⟨h1, h2, h3, h4, h5, h6, h7, h8⟩ := h
  cases sevRank_inj h1
  cases ua <;> cases ub <;> simp_all

/-- The canonical linear order on issues. -/
def issueLE (a b : Issue) : Prop :=
  issueKey a ≤ issueKey b

instance issueLE.decRel : DecidableRel issueLE := fun a b =>
  inferInstanceAs (Decidable (issueKey a ≤ issueKey b))

instance issueLE.isTotal : IsTotal Issue issueLE :=
  ⟨fun _ _ => le_total _ _⟩

instance issueLE.isTrans : IsTrans Issue issueLE :=
  ⟨fun _ _ _ h₁ h₂ => le_trans h₁ h₂⟩

instance issueLE.isAntisymm : IsAntisymm Issue issueLE :=
  ⟨fun _ _ h₁ h₂ => issueKey_inj (le_antisymm h₁ h₂)⟩

/-- The order the spec demands of the presented issue list: by severity, ties
broken by asset path then rule id. -/
def specIssueOrder (a b : Issue) : Prop :=
  sevRank a.severity < sevRank b.severity ∨
    (sevRank a.severity = sevRank b.severity ∧
      (a.asset_path < b.asset_path ∨
        (a.asset_path = b.asset_path ∧ a.rule_id ≤ b.rule_id)))

theorem issueLE_specIssueOrder {a b : Issue} (h : issueLE a b) :
    specIssueOrder a b := by
  unfold issueLE issueKey at h
  rw [Prod.Lex.le_iff] at h
  rcases h with h | ⟨h1, h⟩
  · exact Or.inl h
  · refine Or.inr ⟨h1, ?_⟩
    rw [Prod.Lex.le_iff] at h
    rcases h with h | ⟨h2, h⟩
    · exact Or.inl h
    · refine Or.inr ⟨h2, ?_⟩
      rw [Prod.Lex.le_iff] at h
      rcases h with h | ⟨h3, _⟩
      · exact le_of_lt h
      · exact le_of_eq h3

/-- Modelled from the spec: a rule is an independent, side-effect-free
function of a single asset record (and the fixed config), emitting issues for
that asset.  The backend rule engine implementing this is not part of the
repository. -/
def RuleFn : Type :=
  AssetInfo → List Issue

/-- Modelled from the spec: the raw issues of one analysis run — every rule
applied to every asset, collected in the order the schedule processes the
assets.  A worker-pool schedule is a permutation of the asset list. -/
def rawIssues (rules : List RuleFn) (assets : List AssetInfo) : List Issue :=
  assets.flatMap (fun a => rules.flatMap (fun r => r a))

/-- Modelled from the spec: `analyze` presents the collected issues sorted by
the canonical order (severity, then asset path, then rule id, remaining
fields as tie-break). -/
def analyze (rules : List RuleFn) (assets : List AssetInfo) : List Issue :=
  List.insertionSort issueLE (rawIssues rules assets)

/-- Modelled from the spec: record one more issue of rule `r` in the by-rule
counting map. -/
def bumpRule : List (String × Nat) → String → List (String × Nat)
  | [], r => [(r, 1)]
  | (k, v) :: rest, r =>
      if k = r then (k, v + 1) :: rest else (k, v) :: bumpRule rest r

/-- Look a rule id up in the by-rule counting map (missing keys count 0). -/
def lookupRule (m : List (String × Nat)) (r : String) : Nat :=
  match m.find? (fun kv => kv.1 == r) with
  | some kv => kv.2
  | none => 0

/-- Running tallies of one aggregation pass over the issue list. -/
structure Tally where
  issue_count : Nat
  error_count : Nat
  warning_count : Nat
  info_count : Nat
  by_rule : List (String × Nat)

/-- One aggregation step: count the issue once in the total, once in its
severity bucket and once under its rule id. -/
def stepTally (t : Tally) (i : Issue) : Tally :=
  { issue_count := t.issue_count + 1
    error_count := t.error_count + (if i.severity = .error then 1 else 0)
    warning_count := t.warning_count + (if i.severity = .warning then 1 else 0)
    info_count := t.info_count + (if i.severity = .info then 1 else 0)
    by_rule := bumpRule t.by_rule i.rule_id }

/-- Modelled from the spec: the analyzer assembles the `AnalysisResult` from
the issue list, computing all counts in a single pass. -/
def mkAnalysisResult (issues : List Issue) : AnalysisResult :=
  let t := issues.foldl stepTally ⟨0, 0, 0, 0, []⟩
  { issues := issues
    issue_count := t.issue_count
    error_count := t.error_count
    warning_count := t.warning_count
    info_count := t.info_count
    by_rule := t.by_rule }

/-- The issue-list view's severity filter (`IssueList` component): `none`
stands for the `"all"` tab and shows the full list, otherwise the issues of
the selected severity in list order. -/
def filteredIssues (result : AnalysisResult) (filt : Option Severity) :
    List Issue :=
  match filt with
  | none => result.issues
  | some sv => result.issues.filter (fun i => i.severity == sv)

/-! ### Sample data shared by the witnesses -/

/-- A sample texture asset. -/
def sampleTexture : AssetInfo :=
  { path := "proj/tex/a.png", name := "a.png", extension := "png"
    asset_type := .texture, size := 10 }

/-- A sample model asset. -/
def sampleModel : AssetInfo :=
  { path := "proj/mesh/m.fbx", name := "m.fbx", extension := "fbx"
    asset_type := .model, size := 20 }

/-- A sample scan result holding the two sample assets. -/
def sampleScan : ScanResult :=
  { root_path := "proj", directory_tree := .node "proj" "proj" [] 2 30
    assets := [sampleTexture, sampleModel], total_count := 2, total_size := 30 }

/-- A sample store state with a completed scan installed. -/
def sampleState : ProjectState :=
  { initialState with projectPath := some "proj"
                      scanResult := some sampleScan
                      selectedDirectory := some "proj" }

/-- A sample rule flagging every asset with a warning. -/
def sampleRule : RuleFn := fun a =>
  [{ rule_id := "size", rule_name := "Size", severity := .warning
     message := "big", asset_path := a.path, auto_fixable := false }]

/-! ### Helper lemmas -/

theorem filterWhen_sublist (c : Bool) (p : AssetInfo → Bool)
    (l : List AssetInfo) : (filterWhen c p l).Sublist l := by
  unfold filterWhen
  split
  · exact List.filter_sublist l
  · exact List.Sublist.refl l

theorem filterOpt_sublist {β : Type} (o : Option β) (p : β → AssetInfo → Bool)
    (l : List AssetInfo) : (filterOpt o p l).Sublist l := by
  unfold filterOpt
  split
  · exact List.filter_sublist l
  · exact List.Sublist.refl l

theorem applyAssetFilters_sublist (s : ProjectState) (l : List AssetInfo) :
    (applyAssetFilters s l).Sublist l :=
  .trans (filterWhen_sublist _ _ _) <|
    .trans (filterOpt_sublist _ _ _) <|
      .trans (filterOpt_sublist _ _ _) <|
        .trans (filterOpt_sublist _ _ _) <|
          .trans (filterOpt_sublist _ _ _) <|
            .trans (filterOpt_sublist _ _ _) <|
              .trans (filterOpt_sublist _ _ _) <|
                .trans (filterOpt_sublist _ _ _) <|
                  .trans (filterWhen_sublist _ _ _) (filterOpt_sublist _ _ _)

theorem flipDirection_flipDirection (d : SortDirection) :
    flipDirection (flipDirection d) = d := by
  cases d <;> rfl

/-! ### The claims -/

/-- C1: a scan rejection whose message contains `"cancelled"` yields no new
state: `openProject` keeps the previous `scanResult` and `projectPath`,
clears the scanning flag and the progress, and surfaces no error. -/
theorem claim1_cancelled_scan_no_new_state (s : ProjectState) (path : String)
    (lastProgress : Option ScanProgress) (msg : String)
    (h : strIncludes msg "cancelled" = true) :
    (openProject s path lastProgress (.failure msg)).scanResult = s.scanResult ∧
    (openProject s path lastProgress (.failure msg)).projectPath = s.projectPath ∧
    (openProject s path lastProgress (.failure msg)).isScanning = false ∧
    (openProject s path lastProgress (.failure msg)).scanProgress = none ∧
    (openProject s path lastProgress (.failure msg)).error = none := by
  simp [openProject, h]

/-- Witness for C1 at a concrete state and message. -/
theorem claim1_witness :
    strIncludes "scan cancelled" "cancelled" = true ∧
    ((openProject sampleState "proj" none (.failure "scan cancelled")).scanResult
        = sampleState.scanResult ∧
      (openProject sampleState "proj" none (.failure "scan cancelled")).projectPath
        = sampleState.projectPath ∧
      (openProject sampleState "proj" none (.failure "scan cancelled")).isScanning
        = false ∧
      (openProject sampleState "proj" none (.failure "scan cancelled")).scanProgress
        = none ∧
      (openProject sampleState "proj" none (.failure "scan cancelled")).error
        = none) :=
  ⟨by decide,
   claim1_cancelled_scan_no_new_state sampleState "proj" none "scan cancelled"
     (by decide)⟩

/-- C3: a successful scan supersedes the previous result wholesale: for every
prior state the new `scanResult` is exactly the resolved result, the selected
asset is reset and the selected directory becomes the scanned root. -/
theorem claim3_completed_scan_supersedes (s : ProjectState) (path : String)
    (lastProgress : Option ScanProgress) (r : ScanResult) :
    (openProject s path lastProgress (.success r)).scanResult = some r ∧
    (openProject s path lastProgress (.success r)).selectedAsset = none ∧
    (openProject s path lastProgress (.success r)).selectedDirectory = some path ∧
    (openProject s path lastProgress (.success r)).projectPath = some path := by
  simp [openProject]

/-- C6: a scan rejection whose message does not contain `"cancelled"` sets
exactly one top-level error — the stringified failure — clears the scanning
flag and progress, and installs no scan result. -/
theorem claim6_fatal_failure_single_error (s : ProjectState) (path : String)
    (lastProgress : Option ScanProgress) (msg : String)
    (h : strIncludes msg "cancelled" = false) :
    (openProject s path lastProgress (.failure msg)).error = some msg ∧
    (openProject s path lastProgress (.failure msg)).isScanning = false ∧
    (openProject s path lastProgress (.failure msg)).scanProgress = none ∧
    (openProject s path lastProgress (.failure msg)).scanResult = s.scanResult ∧
    (openProject s path lastProgress (.failure msg)).projectPath = s.projectPath := by
  simp [openProject, h]

/-- Witness for C6 at a concrete state and message. -/
theorem claim6_witness :
    strIncludes "root path not accessible" "cancelled" = false ∧
    ((openProject sampleState "proj" none
          (.failure "root path not accessible")).error
        = some "root path not accessible" ∧
      (openProject sampleState "proj" none
          (.failure "root path not accessible")).isScanning = false ∧
      (openProject sampleState "proj" none
          (.failure "root path not accessible")).scanProgress = none ∧
      (openProject sampleState "proj" none
          (.failure "root path not accessible")).scanResult
        = sampleState.scanResult ∧
      (openProject sampleState "proj" none
          (.failure "root path not accessible")).projectPath
        = sampleState.projectPath) :=
  ⟨by decide,
   claim6_fatal_failure_single_error sampleState "proj" none
     "root path not accessible" (by decide)⟩

/-- C10: `setSortField` on the current field only flips the direction (so a
double call restores the state); on a new field it selects that field
ascending regardless of the previous direction. -/
theorem claim10_setSortField_toggling (s : ProjectState) (f : SortField) :
    (s.sortField = f →
      setSortField s f = { s with sortDirection := flipDirection s.sortDirection } ∧
      setSortField (setSortField s f) f = s) ∧
    (s.sortField ≠ f →
      setSortField s f = { s with sortField := f, sortDirection := .asc }) := by
  obtain ⟨pp, srr, isc, er, sp, ar, ia, vm, sd, sa, sq, tf, sf, dir, af, cu, uh, gi, gs⟩ := s
  constructor
  · intro h
    subst h
    constructor
    · simp [setSortField]
    · simp [setSortField, flipDirection_flipDirection]
  · intro h
    simp only at h
    simp [setSortField, h]

/-- Witness for C10 at a concrete state and both kinds of field argument. -/
theorem claim10_witness :
    (setSortField sampleState .name
        = { sampleState with sortDirection := flipDirection sampleState.sortDirection } ∧
      setSortField (setSortField sampleState .name) .name = sampleState) ∧
    setSortField sampleState .size
      = { sampleState with sortField := .size, sortDirection := .asc } :=
  ⟨(claim10_setSortField_toggling sampleState .name).1 rfl,
   (claim10_setSortField_toggling sampleState .size).2 (by decide)⟩

/-- C2 counterexample: the spec's state names `Idle`, `Extracting` and
`Aggregating` are not values of the program's `ScanPhase` union, so the union
does not enumerate the six spec states; `getPhaseLabel` treats
`"aggregating"` as an unknown phase and falls back to the default label. -/
theorem claim2_counterexample :
    "aggregating" ∈ specClaimPhases ∧
    "aggregating" ∉ scanPhaseValues ∧
    "idle" ∉ scanPhaseValues ∧
    "extracting" ∉ scanPhaseValues ∧
    getPhaseLabel "aggregating" = "Scanning" := by
  decide

/-- C2 (amended): the `ScanPhase` union enumerates exactly `discovering`,
`parsing`, `building`, `completed` and `cancelled` — the spec's `Extracting`
and `Aggregating` are spelled `parsing` and `building`, and there is no
`idle` phase value; the terminal `cancelled` is among them, and
`getPhaseLabel` assigns a dedicated label to precisely these five phases,
defaulting to `"Scanning"` on every other string. -/
theorem claim2_scanPhase_enumeration :
    (∀ p : String, p ∈ scanPhaseValues ↔ getPhaseLabel p ≠ "Scanning") ∧
    scanPhaseValues =
      ["discovering", "parsing", "building", "completed", "cancelled"] ∧
    "cancelled" ∈ scanPhaseValues := by
  refine ⟨?_, rfl, by decide⟩
  intro p
  constructor
  · intro hp
    fin_cases hp <;> decide
  · intro hl
    unfold getPhaseLabel at hl
    split_ifs at hl with h1 h2 h3 h4 h5
    · subst h1; decide
    · subst h2; decide
    · subst h3; decide
    · subst h4; decide
    · subst h5; decide
    · exact absurd rfl hl

/-- C8: `locateAsset` is a no-op when there is no scan result or no asset
with the given path; when the path matches an asset it switches the view to
assets, selects the directory prefix before the last slash, and selects the
matching asset, changing nothing else. -/
theorem claim8_locateAsset_no_op_or_jump (s : ProjectState) (path : String)
    (sr : ScanResult) :
    (s.scanResult = none → locateAsset s path = s) ∧
    (s.scanResult = some sr →
      ((∀ a ∈ sr.assets, a.path ≠ path) → locateAsset s path = s) ∧
      (∀ asset, sr.assets.find? (fun a => a.path == path) = some asset →
        asset.path = path ∧
        locateAsset s path =
          { s with viewMode := .assets
                   selectedDirectory := some (dirOfPath path)
                   selectedAsset := some asset })) := by
  constructor
  · intro h
    simp [locateAsset, h]
  · intro hsr
    constructor
    · intro hall
      have hnone : sr.assets.find? (fun a => a.path == path) = none := by
        rw [List.find?_eq_none]
        intro a ha
        simpa using hall a ha
      simp [locateAsset, hsr, hnone]
    · intro asset hfind
      have hp : asset.path = path := by
        have := List.find?_some hfind
        simpa using this
      exact ⟨hp, by simp [locateAsset, hsr, hfind]⟩

/-- Witness for C8: a no-op on an unknown path and a jump on a known path,
at a concrete state. -/
theorem claim8_witness :
    locateAsset sampleState "proj/none.txt" = sampleState ∧
    locateAsset sampleState "proj/tex/a.png" =
      { sampleState with viewMode := .assets
                         selectedDirectory := some "proj/tex"
                         selectedAsset := some sampleTexture } :=
  ⟨((claim8_locateAsset_no_op_or_jump sampleState "proj/none.txt" sampleScan).2
      rfl).1 (by decide),
   (((claim8_locateAsset_no_op_or_jump sampleState "proj/tex/a.png" sampleScan).2
      rfl).2 sampleTexture (by decide)).2⟩

theorem lookupRule_nil (r : String) : lookupRule [] r = 0 := rfl

theorem lookupRule_cons (k : String) (v : Nat) (rest : List (String × Nat))
    (r : String) :
    lookupRule ((k, v) :: rest) r = if k = r then v else lookupRule rest r := by
  by_cases h : k = r <;> simp [lookupRule, List.find?_cons, h]

theorem lookupRule_bumpRule (m : List (String × Nat)) (q r : String) :
    lookupRule (bumpRule m q) r =
      lookupRule m r + (if q = r then 1 else 0) := by
  induction m with
  | nil =>
      by_cases h : q = r <;> simp [bumpRule, lookupRule_cons, lookupRule_nil, h]
  | cons kv rest ih =>
      obtain ⟨k, v⟩ := kv
      by_cases hk : k = q
      · subst hk
        by_cases hr : k = r <;> simp [bumpRule, lookupRule_cons, hr]
      · have hb : bumpRule ((k, v) :: rest) q = (k, v) :: bumpRule rest q := by
          simp [bumpRule, hk]
        rw [hb, lookupRule_cons, lookupRule_cons]
        by_cases hr : k = r
        · subst hr
          have hq : ¬ q = k := fun h => hk h.symm
          simp [hq]
        · simp [hr, ih]

theorem foldl_stepTally (issues : List Issue) (t : Tally) :
    (issues.foldl stepTally t).issue_count = t.issue_count + issues.length ∧
    (issues.foldl stepTally t).error_count =
      t.error_count + issues.countP (fun i => i.severity == .error) ∧
    (issues.foldl stepTally t).warning_count =
      t.warning_count + issues.countP (fun i => i.severity == .warning) ∧
    (issues.foldl stepTally t).info_count =
      t.info_count + issues.countP (fun i => i.severity == .info) ∧
    ∀ r, lookupRule (issues.foldl stepTally t).by_rule r =
      lookupRule t.by_rule r + issues.countP (fun i => i.rule_id == r) := by
  induction issues generalizing t with
  | nil => simp
  | cons i rest ih =>
      obtain ⟨h1, h2, h3, h4, h5⟩ := ih (stepTally t i)
      refine ⟨?_, ?_, ?_, ?_, ?_⟩
      · rw [List.foldl_cons, h1]
        simp [stepTally]
        omega
      · rw [List.foldl_cons, h2]
        simp [stepTally, List.countP_cons]
        by_cases hs : i.severity = .error <;> (simp [hs]; try omega)
      · rw [List.foldl_cons, h3]
        simp [stepTally, List.countP_cons]
        by_cases hs : i.severity = .warning <;> (simp [hs]; try omega)
      · rw [List.foldl_cons, h4]
        simp [stepTally, List.countP_cons]
        by_cases hs : i.severity = .info <;> (simp [hs]; try omega)
      · intro r
        rw [List.foldl_cons, h5 r]
        simp only [stepTally, lookupRule_bumpRule, List.countP_cons]
        by_cases hr : i.rule_id = r <;> (simp [hr]; try omega)

theorem countP_severity_partition (issues : List Issue) :
    issues.countP (fun i => i.severity == .error) +
      issues.countP (fun i => i.severity == .warning) +
      issues.countP (fun i => i.severity == .info) = issues.length := by
  induction issues with
  | nil => simp
  | cons i rest ih =>
      simp only [List.countP_cons, List.length_cons]
      cases h : i.severity <;> (simp [h]; try omega)

/-- C4: the spec-modelled analyzer's `AnalysisResult` counts are exact
aggregates of its issue list: `issue_count` is the list length, the three
severity counts are the sizes of the severity buckets and sum to
`issue_count`, and `by_rule` maps every rule id to the number of issues
carrying it. -/
theorem claim4_counts_exact_aggregates (issues : List Issue) (r : String) :
    (mkAnalysisResult issues).issue_count =
      (mkAnalysisResult issues).issues.length ∧
    (mkAnalysisResult issues).error_count =
      (mkAnalysisResult issues).issues.countP (fun i => i.severity == .error) ∧
    (mkAnalysisResult issues).warning_count =
      (mkAnalysisResult issues).issues.countP (fun i => i.severity == .warning) ∧
    (mkAnalysisResult issues).info_count =
      (mkAnalysisResult issues).issues.countP (fun i => i.severity == .info) ∧
    (mkAnalysisResult issues).error_count +
        (mkAnalysisResult issues).warning_count +
        (mkAnalysisResult issues).info_count =
      (mkAnalysisResult issues).issue_count ∧
    lookupRule (mkAnalysisResult issues).by_rule r =
      (mkAnalysisResult issues).issues.countP (fun i => i.rule_id == r) := by
  obtain ⟨h1, h2, h3, h4, h5⟩ := foldl_stepTally issues ⟨0, 0, 0, 0, []⟩
  refine ⟨?_, ?_, ?_, ?_, ?_, ?_⟩ <;>
    simp [mkAnalysisResult, h1, h2, h3, h4, h5, lookupRule_nil,
      countP_severity_partition]

/-- C5: the spec-modelled `analyze` is deterministic with a canonical output
order: any two runs over schedules that permute the asset list produce the
same issue list, that list is sorted by severity, then asset path, then rule
id, and the issue-list view's per-severity tab is an order-preserving filter
(a sublist) of the full presented list. -/
theorem claim5_analyze_deterministic_canonical (rules : List RuleFn)
    (assets assets' : List AssetInfo) (sv : Severity)
    (h : assets.Perm assets') :
    analyze rules assets = analyze rules assets' ∧
    List.Sorted specIssueOrder (analyze rules assets) ∧
    (filteredIssues (mkAnalysisResult (analyze rules assets)) (some sv)).Sublist
      (filteredIssues (mkAnalysisResult (analyze rules assets)) none) := by
  have hsorted : ∀ l : List Issue,
      List.Sorted issueLE (List.insertionSort issueLE l) := fun l =>
    List.sorted_insertionSort issueLE l
  refine ⟨?_, ?_, ?_⟩
  · have hraw : (rawIssues rules assets).Perm (rawIssues rules assets') := by
      unfold rawIssues
      exact h.flatMap_right _
    apply List.eq_of_perm_of_sorted (r := issueLE)
    · exact (List.perm_insertionSort _ _).trans
        (hraw.trans (List.perm_insertionSort _ _).symm)
    · exact hsorted _
    · exact hsorted _
  · exact List.Pairwise.imp (fun hab => issueLE_specIssueOrder hab) (hsorted _)
  · simp only [filteredIssues, mkAnalysisResult]
    exact List.filter_sublist _

/-- Witness for C5: two schedules of a two-asset project under one rule. -/
theorem claim5_witness :
    analyze [sampleRule] [sampleTexture, sampleModel]
      = analyze [sampleRule] [sampleModel, sampleTexture] ∧
    List.Sorted specIssueOrder (analyze [sampleRule] [sampleTexture, sampleModel]) ∧
    (filteredIssues
        (mkAnalysisResult (analyze [sampleRule] [sampleTexture, sampleModel]))
        (some .error)).Sublist
      (filteredIssues
        (mkAnalysisResult (analyze [sampleRule] [sampleTexture, sampleModel]))
        none) :=
  claim5_analyze_deterministic_canonical [sampleRule]
    [sampleTexture, sampleModel] [sampleModel, sampleTexture] .error
    (List.Perm.swap sampleModel sampleTexture [])

/-- C7: after a completed scan the stored asset array is never mutated: every
store action on the result leaves `scanResult` (and so its `assets` array and
each element) untouched, and `getFilteredAssets` sorts a fresh copy — its
output is a permutation of the filtered copy, leaving the stored array with
its original elements in their original order. -/
theorem claim7_scan_result_frame (s : ProjectState) (sr : ScanResult)
    (mode : ViewMode) (pth : Option String) (asset : Option AssetInfo)
    (query : String) (t : Option AssetType) (f : SortField)
    (patch : AdvancedFiltersPatch) (loc : String)
    (outcome : Except String AnalysisResult)
    (h : s.scanResult = some sr) :
    (setViewMode s mode).scanResult = some sr ∧
    (setSelectedDirectory s pth).scanResult = some sr ∧
    (setSelectedAsset s asset).scanResult = some sr ∧
    (setSearchQuery s query).scanResult = some sr ∧
    (setTypeFilter s t).scanResult = some sr ∧
    (setSortField s f).scanResult = some sr ∧
    (toggleSortDirection s).scanResult = some sr ∧
    (locateAsset s loc).scanResult = some sr ∧
    (setAdvancedFilters s patch).scanResult = some sr ∧
    (resetAdvancedFilters s).scanResult = some sr ∧
    (runAnalysis s outcome).scanResult = some sr ∧
    (getFilteredAssets s).Perm (applyAssetFilters s sr.assets) := by
  refine ⟨?_, ?_, ?_, ?_, ?_, ?_, ?_, ?_, ?_, ?_, ?_, ?_⟩
  · simp [setViewMode, h]
  · simp [setSelectedDirectory, h]
  · simp [setSelectedAsset, h]
  · simp [setSearchQuery, h]
  · simp [setTypeFilter, h]
  · unfold setSortField
    split <;> simp [h]
  · simp [toggleSortDirection, h]
  · unfold locateAsset
    rw [h]
    cases hfind : sr.assets.find? (fun a => a.path == loc) <;> simp [hfind, h]
  · simp [setAdvancedFilters, h]
  · simp [resetAdvancedFilters, h]
  · unfold runAnalysis
    rcases outcome with e | r <;> simp [h]
  · simp only [getFilteredAssets, h]
    exact List.perm_insertionSort _ _

/-- Witness for C7 at a concrete state with a completed scan. -/
theorem claim7_witness :
    (setViewMode sampleState .stats).scanResult = some sampleScan ∧
    (setSelectedDirectory sampleState none).scanResult = some sampleScan ∧
    (setSelectedAsset sampleState none).scanResult = some sampleScan ∧
    (setSearchQuery sampleState "q").scanResult = some sampleScan ∧
    (setTypeFilter sampleState none).scanResult = some sampleScan ∧
    (setSortField sampleState .size).scanResult = some sampleScan ∧
    (toggleSortDirection sampleState).scanResult = some sampleScan ∧
    (locateAsset sampleState "proj/none.txt").scanResult = some sampleScan ∧
    (setAdvancedFilters sampleState {}).scanResult = some sampleScan ∧
    (resetAdvancedFilters sampleState).scanResult = some sampleScan ∧
    (runAnalysis sampleState (.error "analysis failed")).scanResult
      = some sampleScan ∧
    (getFilteredAssets sampleState).Perm
      (applyAssetFilters sampleState sampleScan.assets) :=
  claim7_scan_result_frame sampleState sampleScan .stats none none "q" none
    .size {} "proj/none.txt" (.error "analysis failed") rfl

/-- C9: `getFilteredAssets` never invents assets and is deterministic: it is
empty without a scan result; with one, every returned asset occurs in
`scanResult.assets` at no higher multiplicity (the result is a sorted
sub-multiset), and recomputation on the same state returns the same list. -/
theorem claim9_getFilteredAssets_sound (s : ProjectState) (a : AssetInfo)
    (sr : ScanResult) :
    (s.scanResult = none → getFilteredAssets s = []) ∧
    (s.scanResult = some sr →
      (getFilteredAssets s).count a ≤ sr.assets.count a ∧
      (a ∈ getFilteredAssets s → a ∈ sr.assets) ∧
      List.Sorted (sortRel s.sortField s.sortDirection) (getFilteredAssets s)) ∧
    getFilteredAssets s = getFilteredAssets s := by
  refine ⟨?_, ?_, rfl⟩
  · intro h
    simp [getFilteredAssets, h]
  · intro h
    have hperm : (getFilteredAssets s).Perm (applyAssetFilters s sr.assets) := by
      simp only [getFilteredAssets, h]
      exact List.perm_insertionSort _ _
    have hsub := applyAssetFilters_sublist s sr.assets
    refine ⟨?_, ?_, ?_⟩
    · rw [hperm.count_eq]
      exact hsub.count_le a
    · intro ha
      exact hsub.mem (hperm.mem_iff.mp ha)
    · simp only [getFilteredAssets, h]
      exact List.sorted_insertionSort _ _

/-- Witness for C9: the empty-state case and the count bound at a concrete
populated state. -/
theorem claim9_witness :
    getFilteredAssets initialState = [] ∧
    (getFilteredAssets sampleState).count sampleTexture
      ≤ sampleScan.assets.count sampleTexture :=
  ⟨(claim9_getFilteredAssets_sound initialState sampleTexture sampleScan).1 rfl,
   ((claim9_getFilteredAssets_sound sampleState sampleTexture
      sampleScan).2.1 rfl).1⟩

end Tidycraft
